import Mathlib

/-!
Shallow embedding of the whiteboard session server (server.js, the
LMDB-persistent variant) and proofs about its HTTP and socket mutation
handlers.

JavaScript objects are modelled as association lists of string keys to
flat values; spread syntax corresponds to list append, and field lookup
returns the last binding (later spread entries override earlier ones).
Nondeterministic inputs of the runtime (Date.now(), uuidv4()) are passed
in as explicit parameters.  WebSocket delivery is modelled as the list of
(client id, frame) pairs that the handler sends.
-/

namespace Whiteboard

/-- Flat JavaScript value: the fields the server ever inspects (type, id,
position, coordinates) are all primitives. -/
inductive Val where
  | str (s : String)
  | num (n : Int)
  | bool (b : Bool)
  | null
deriving DecidableEq, Repr

/-- JavaScript truthiness for the values of Val, as used by the source in
conditions such as the id-defaulting expression elementData.id or uuidv4(). -/
def truthy : Val → Bool
  | .str s => s ≠ ""
  | .num n => n ≠ 0
  | .bool b => b
  | .null => false

/-- A JavaScript object: association list, later bindings override earlier
ones (spread semantics). -/
abbrev Obj := List (String × Val)

/-- Field lookup returning the last binding for the key, matching the
override order of object spread. -/
def getK : Obj → String → Option Val
  | [], _ => none
  | (k1, v) :: rest, k =>
    match getK rest k with
    | some w => some w
    | none => if k1 = k then some v else none

/-- Lookup in a string-keyed map modelled as an association list with
unique keys (JavaScript Map, LMDB store). -/
def aGet {α : Type} (m : List (String × α)) (k : String) : Option α :=
  (m.find? (fun p => p.1 = k)).map Prod.snd

/-- Update-or-insert for the string-keyed maps (Map.set, db.put). -/
def aPut {α : Type} (m : List (String × α)) (k : String) (v : α) : List (String × α) :=
  if m.any (fun p => p.1 = k) then
    m.map (fun p => if p.1 = k then (k, v) else p)
  else
    m ++ [(k, v)]

/-- A connected WebSocket client: its identity and whether readyState is
OPEN. -/
structure Client where
  cid : Nat
  isOpen : Bool
deriving DecidableEq, Repr

/-- In-memory session object: id, ordered element list, attached clients,
creation time. -/
structure Session where
  id : String
  elements : List Obj
  clients : List Client
  createdAt : Int
deriving DecidableEq, Repr

/-- The record saveSession writes to LMDB: id, elements, createdAt. -/
structure SessRec where
  id : String
  elements : List Obj
  createdAt : Int
deriving DecidableEq, Repr

/-- The serializable part of a session, as persisted by saveSession. -/
def sessRecOf (s : Session) : SessRec :=
  ⟨s.id, s.elements, s.createdAt⟩

/-- The durable LMDB store, keyed by session identifier. -/
abbrev Db := List (String × SessRec)

/-- Process state: the in-memory session map and the durable store. -/
structure ServerState where
  sessions : List (String × Session)
  db : Db
deriving DecidableEq, Repr

/-- saveSession(sessionId): look the session up in the in-memory map and
write its serializable record to the store; no-op when absent. -/
def saveSession (st : ServerState) (sid : String) : ServerState :=
  match aGet st.sessions sid with
  | some s => { st with db := aPut st.db sid (sessRecOf s) }
  | none => st

/-- getOrCreateSession: return the cached session, else rehydrate from the
store (fresh empty client set), else create a new empty session and
persist its skeleton immediately.  The now parameter stands for
Date.now(). -/
def getOrCreateSession (st : ServerState) (sid : String) (now : Int) :
    Session × ServerState :=
  match aGet st.sessions sid with
  | some s => (s, st)
  | none =>
    match aGet st.db sid with
    | some p =>
      let s : Session := ⟨p.id, p.elements, [], p.createdAt⟩
      (s, { st with sessions := aPut st.sessions sid s })
    | none =>
      let s : Session := ⟨sid, [], [], now⟩
      let st1 : ServerState := { st with sessions := aPut st.sessions sid s }
      (s, saveSession st1 sid)

/-- A wire value inside an outbound frame: a primitive, an element object,
an element array, or a count. -/
inductive WireVal where
  | prim (v : Val)
  | elem (e : Obj)
  | elems (es : List Obj)
  | count (n : Nat)
deriving DecidableEq, Repr

/-- An outbound frame, keeping the exact wire field names the source
writes in its object literals. -/
abbrev Frame := List (String × WireVal)

/-- Lookup of a wire field in a frame. -/
def frameGet (f : Frame) (k : String) : Option WireVal :=
  (f.find? (fun p => p.1 = k)).map Prod.snd

/-- One delivered frame: recipient client id and the frame. -/
abbrev Delivery := Nat × Frame

/-- broadcast(session, message, excludeClient): send to every client of
the session that is not the excluded one and whose readyState is OPEN. -/
def broadcast (clients : List Client) (frame : Frame) (exclude : Option Nat) :
    List Delivery :=
  (clients.filter (fun c => decide (exclude ≠ some c.cid) && c.isOpen)).map
    (fun c => (c.cid, frame))

/-- broadcastAll(session, message): send to every client whose readyState
is OPEN, the sender included. -/
def broadcastAll (clients : List Client) (frame : Frame) : List Delivery :=
  (clients.filter (fun c => c.isOpen)).map (fun c => (c.cid, frame))

/-- Frame literal for draw. -/
def drawFrame (e : Obj) : Frame :=
  [("type", .prim (.str "draw")), ("element", .elem e)]

/-- Frame literal for erase. -/
def eraseFrame (elementId : Val) : Frame :=
  [("type", .prim (.str "erase")), ("elementId", .prim elementId)]

/-- Frame literal for clear. -/
def clearFrame : Frame :=
  [("type", .prim (.str "clear"))]

/-- Frame literal for cursor; the user-identifier field is spelled oderId
in the source. -/
def cursorFrame (userId : String) (x y : Val) : Frame :=
  [("type", .prim (.str "cursor")), ("oderId", .prim (.str userId)),
   ("x", .prim x), ("y", .prim y)]

/-- Frame literal for move. -/
def moveFrame (elementId : Val) (e : Obj) : Frame :=
  [("type", .prim (.str "move")), ("elementId", .prim elementId),
   ("element", .elem e)]

/-- Frame literal for reorder. -/
def reorderFrame (elementId : Val) (position : Val) : Frame :=
  [("type", .prim (.str "reorder")), ("elementId", .prim elementId),
   ("position", .prim position)]

/-- The id-defaulting expression elementData.id or uuidv4(): keep a truthy
supplied id, otherwise use the fresh uuid. -/
def idOrFresh (o : Obj) (fresh : String) : Val :=
  match getK o "id" with
  | some v => if truthy v then v else .str fresh
  | none => .str fresh

/-- The element record a create builds: the input object spread first,
then id, createdBy and timestamp. -/
def mkCreated (body : Obj) (fresh : String) (creator : String) (now : Int) : Obj :=
  body ++ [("id", idOrFresh body fresh), ("createdBy", .str creator),
           ("timestamp", .num now)]

/-- A WebSocket connection: its client id, assigned user id and bound
session id. -/
structure Sock where
  cid : Nat
  userId : String
  sessionId : String
deriving DecidableEq, Repr

/-- Decoded incoming socket message, discriminated by its type field. -/
inductive Msg where
  | draw (element : Obj)
  | erase (elementId : Val)
  | clear
  | cursor (x y : Val)
  | move (elementId : Val) (element : Obj)
  | reorder (elementId : Val) (position : Val)
  | other (t : String)
deriving DecidableEq, Repr

/-- handleMessage(ws, session, message).  The session argument is the
object the sessions map holds under ws.sessionId, so the saveSession call
of the source amounts to writing this session record under that key.
Date.now() and uuidv4() are the now and fresh parameters.  Returns the
updated session, the updated store, and the deliveries made. -/
def handleMessage (ws : Sock) (session : Session) (db : Db) (msg : Msg)
    (now : Int) (fresh : String) : Session × Db × List Delivery :=
  match msg with
  | .draw body =>
    let element := mkCreated body fresh ws.userId now
    let s1 : Session := { session with elements := session.elements ++ [element] }
    (s1, aPut db ws.sessionId (sessRecOf s1),
     broadcast s1.clients (drawFrame element) (some ws.cid))
  | .erase eid =>
    let s1 : Session :=
      { session with
        elements := session.elements.filter (fun el => decide (getK el "id" ≠ some eid)) }
    (s1, aPut db ws.sessionId (sessRecOf s1),
     broadcast s1.clients (eraseFrame eid) (some ws.cid))
  | .clear =>
    let s1 : Session := { session with elements := [] }
    (s1, aPut db ws.sessionId (sessRecOf s1),
     broadcast s1.clients clearFrame (some ws.cid))
  | .cursor x y =>
    (session, db,
     broadcast session.clients (cursorFrame ws.userId x y) (some ws.cid))
  | .move eid body =>
    match session.elements.findIdx? (fun el => decide (getK el "id" = some eid)) with
    | some i =>
      let newRec : Obj :=
        body ++ [("movedBy", .str ws.userId), ("movedAt", .num now)]
      let s1 : Session := { session with elements := session.elements.set i newRec }
      (s1, aPut db ws.sessionId (sessRecOf s1),
       broadcast s1.clients (moveFrame eid newRec) (some ws.cid))
    | none => (session, db, [])
  | .reorder eid pos =>
    match session.elements.findIdx? (fun el => decide (getK el "id" = some eid)) with
    | some i =>
      let el := (session.elements.get? i).getD []
      let rest := session.elements.eraseIdx i
      let elems1 :=
        if pos = Val.str "front" then rest ++ [el]
        else if pos = Val.str "back" then el :: rest
        else rest
      let s1 : Session := { session with elements := elems1 }
      (s1, aPut db ws.sessionId (sessRecOf s1),
       broadcast s1.clients (reorderFrame eid pos) (some ws.cid))
    | none => (session, db, [])
  | .other _ => (session, db, [])

/-- The validTypes array of the HTTP create handlers, exactly as the
source lists it. -/
def validTypes : List String :=
  ["rectangle", "circle", "line", "pen", "text", "note"]

/-- JavaScript truthiness of a possibly-absent field, as tested by the
guard on elementData.type. -/
def truthyField (o : Option Val) : Bool :=
  match o with
  | some v => truthy v
  | none => false

/-- validTypes.includes(elementData.type): true exactly when the field is
a string strictly equal to one of the listed tags. -/
def includesType (o : Option Val) : Bool :=
  match o with
  | some (.str t) => validTypes.contains t
  | _ => false

/-- JSON body of an HTTP response. -/
inductive RespBody where
  | jsonErr (msg : String)
  | jsonElem (e : Obj)
  | jsonElems (es : List Obj)
  | sessionInfo (id : String) (elementCount : Nat) (elements : List Obj)
      (userCount : Nat) (createdAt : Int)
  | empty
deriving DecidableEq, Repr

/-- HTTP response: status code and JSON body. -/
structure HttpResp where
  status : Nat
  body : RespBody
deriving DecidableEq, Repr

/-- GET /api/sessions/:sessionId — 404 when the store has no record for
the identifier, else the session info snapshot. -/
def httpGetSession (st : ServerState) (sid : String) (now : Int) :
    HttpResp × ServerState × List Delivery :=
  match aGet st.db sid with
  | none => (⟨404, .jsonErr "Session not found"⟩, st, [])
  | some _ =>
    let (session, st1) := getOrCreateSession st sid now
    (⟨200, .sessionInfo session.id session.elements.length session.elements
        session.clients.length session.createdAt⟩, st1, [])

/-- GET /api/sessions/:sessionId/elements. -/
def httpGetElements (st : ServerState) (sid : String) (now : Int) :
    HttpResp × ServerState × List Delivery :=
  match aGet st.db sid with
  | none => (⟨404, .jsonErr "Session not found"⟩, st, [])
  | some _ =>
    let (session, st1) := getOrCreateSession st sid now
    (⟨200, .jsonElems session.elements⟩, st1, [])

/-- GET /api/sessions/:sessionId/elements/:elementId. -/
def httpGetElement (st : ServerState) (sid eid : String) (now : Int) :
    HttpResp × ServerState × List Delivery :=
  match aGet st.db sid with
  | none => (⟨404, .jsonErr "Session not found"⟩, st, [])
  | some _ =>
    let (session, st1) := getOrCreateSession st sid now
    match session.elements.find? (fun el => decide (getK el "id" = some (.str eid))) with
    | none => (⟨404, .jsonErr "Element not found"⟩, st1, [])
    | some el => (⟨200, .jsonElem el⟩, st1, [])

/-- POST /api/sessions/:sessionId/elements — the session is created (and
its skeleton persisted) before validation; a valid element is appended,
persisted and broadcast to every open client. -/
def httpPostElement (st : ServerState) (sid : String) (body : Obj)
    (now : Int) (fresh : String) : HttpResp × ServerState × List Delivery :=
  let (session, st1) := getOrCreateSession st sid now
  if truthyField (getK body "type") = false then
    (⟨400, .jsonErr "Element type is required"⟩, st1, [])
  else if includesType (getK body "type") = false then
    (⟨400, .jsonErr "Invalid element type"⟩, st1, [])
  else
    let element := mkCreated body fresh "api" now
    let s1 : Session := { session with elements := session.elements ++ [element] }
    let st2 : ServerState := { st1 with sessions := aPut st1.sessions sid s1 }
    (⟨201, .jsonElem element⟩, saveSession st2 sid,
     broadcastAll s1.clients (drawFrame element))

/-- The loop body of the batch create: walk the input in order; a missing
or unrecognized type aborts with an error, but the elements created so
far stay created and their draw frames stay broadcast.  Returns the
created elements, the deliveries made, and the error if any. -/
def batchLoop (clients : List Client) (now : Int) :
    List Obj → List String → List Obj × List Delivery × Option String
  | [], _ => ([], [], none)
  | body :: rest, freshes =>
    if truthyField (getK body "type") = false then
      ([], [], some "Each element must have a type")
    else if includesType (getK body "type") = false then
      ([], [], some "Invalid element type")
    else
      let element := mkCreated body (freshes.headD "") "api" now
      let dels := broadcastAll clients (drawFrame element)
      let (moreEls, moreDels, err) := batchLoop clients now rest freshes.tail
      (element :: moreEls, dels ++ moreDels, err)

/-- POST /api/sessions/:sessionId/elements/batch — per-element validation
inside the loop; an early validation return skips the saveSession call,
but the valid elements already processed remain in the in-memory list and
their draw frames were already sent. -/
def httpPostBatch (st : ServerState) (sid : String) (bodies : List Obj)
    (now : Int) (freshes : List String) : HttpResp × ServerState × List Delivery :=
  let (session, st1) := getOrCreateSession st sid now
  let (newEls, dels, err) := batchLoop session.clients now bodies freshes
  let s1 : Session := { session with elements := session.elements ++ newEls }
  let st2 : ServerState := { st1 with sessions := aPut st1.sessions sid s1 }
  match err with
  | some m => (⟨400, .jsonErr m⟩, st2, dels)
  | none => (⟨201, .jsonElems newEls⟩, saveSession st2 sid, dels)

/-- PUT /api/sessions/:sessionId/elements/:elementId — overlay the prior
record with the patch, force the id back to the path parameter, stamp
updatedBy and updatedAt, replace in place, persist, broadcast move. -/
def httpPutElement (st : ServerState) (sid eid : String) (patch : Obj)
    (now : Int) : HttpResp × ServerState × List Delivery :=
  match aGet st.db sid with
  | none => (⟨404, .jsonErr "Session not found"⟩, st, [])
  | some _ =>
    let (session, st1) := getOrCreateSession st sid now
    match session.elements.findIdx? (fun el => decide (getK el "id" = some (.str eid))) with
    | none => (⟨404, .jsonErr "Element not found"⟩, st1, [])
    | some i =>
      let old := (session.elements.get? i).getD []
      let updated : Obj :=
        old ++ patch ++ [("id", .str eid), ("updatedBy", .str "api"),
                         ("updatedAt", .num now)]
      let s1 : Session := { session with elements := session.elements.set i updated }
      let st2 : ServerState := { st1 with sessions := aPut st1.sessions sid s1 }
      (⟨200, .jsonElem updated⟩, saveSession st2 sid,
       broadcastAll s1.clients (moveFrame (.str eid) updated))

/-- DELETE /api/sessions/:sessionId/elements/:elementId — splice out the
first record whose id equals the path parameter; 404 when absent. -/
def httpDeleteElement (st : ServerState) (sid eid : String) (now : Int) :
    HttpResp × ServerState × List Delivery :=
  match aGet st.db sid with
  | none => (⟨404, .jsonErr "Session not found"⟩, st, [])
  | some _ =>
    let (session, st1) := getOrCreateSession st sid now
    match session.elements.findIdx? (fun el => decide (getK el "id" = some (.str eid))) with
    | none => (⟨404, .jsonErr "Element not found"⟩, st1, [])
    | some i =>
      let s1 : Session := { session with elements := session.elements.eraseIdx i }
      let st2 : ServerState := { st1 with sessions := aPut st1.sessions sid s1 }
      (⟨204, .empty⟩, saveSession st2 sid,
       broadcastAll s1.clients (eraseFrame (.str eid)))

/-- DELETE /api/sessions/:sessionId/elements — clear all elements. -/
def httpClearElements (st : ServerState) (sid : String) (now : Int) :
    HttpResp × ServerState × List Delivery :=
  match aGet st.db sid with
  | none => (⟨404, .jsonErr "Session not found"⟩, st, [])
  | some _ =>
    let (session, st1) := getOrCreateSession st sid now
    let s1 : Session := { session with elements := [] }
    let st2 : ServerState := { st1 with sessions := aPut st1.sessions sid s1 }
    (⟨204, .empty⟩, saveSession st2 sid, broadcastAll s1.clients clearFrame)

/-- Frame literal for init, sent to exactly the newly attached socket. -/
def initFrame (userId : String) (elements : List Obj) (userCount : Nat) : Frame :=
  [("type", .prim (.str "init")), ("userId", .prim (.str userId)),
   ("elements", .elems elements), ("userCount", .count userCount)]

/-- Frame literal for userCount. -/
def userCountFrame (count : Nat) : Frame :=
  [("type", .prim (.str "userCount")), ("count", .count count)]

/-- The socket attach sequence for a connection that did supply a session
query parameter: get or create the session, add the client, send init to
the new socket, broadcast userCount to everyone. -/
def wsConnect (st : ServerState) (sid : String) (cid : Nat) (userId : String)
    (now : Int) : ServerState × List Delivery :=
  let (session, st1) := getOrCreateSession st sid now
  let s1 : Session := { session with clients := session.clients ++ [⟨cid, true⟩] }
  let st2 : ServerState := { st1 with sessions := aPut st1.sessions sid s1 }
  let dels : List Delivery :=
    (cid, initFrame userId session.elements s1.clients.length) ::
      broadcastAll s1.clients (userCountFrame s1.clients.length)
  (st2, dels)

/-- The client ids that receive a broadcast excluding an origin. -/
def openOthers (clients : List Client) (origin : Nat) : List Nat :=
  (clients.filter (fun c => c.isOpen && decide (c.cid ≠ origin))).map Client.cid

/-- The client ids that receive a broadcast to all. -/
def openAll (clients : List Client) : List Nat :=
  (clients.filter (fun c => c.isOpen)).map Client.cid

/-- The record the socket move case builds: the client body spread first,
then movedBy and movedAt. -/
def movedRec (body : Obj) (userId : String) (now : Int) : Obj :=
  body ++ [("movedBy", .str userId), ("movedAt", .num now)]

/-- The record the HTTP update builds: prior record spread first, then
the patch, then the forced id and the update stamps. -/
def putRec (old patch : Obj) (eid : String) (now : Int) : Obj :=
  old ++ patch ++ [("id", .str eid), ("updatedBy", .str "api"), ("updatedAt", .num now)]

/-- The elements a batch create builds from its input order and its fresh
id supply. -/
def batchCreated : List Obj → List String → Int → List Obj
  | [], _, _ => []
  | b :: bs, freshes, now =>
    mkCreated b (freshes.headD "") "api" now :: batchCreated bs freshes.tail now

/-- The deliveries of a batch create: one broadcast to all open clients
per created element, in order. -/
def batchDels (clients : List Client) (created : List Obj) : List Delivery :=
  (created.map (fun e => broadcastAll clients (drawFrame e))).flatten

/-- The validation message the batch loop reports for an invalid
element. -/
def batchErrMsg (bad : Obj) : String :=
  if truthyField (getK bad "type") = false then "Each element must have a type"
  else "Invalid element type"

/-- The id fields present on a list of elements. -/
def elementIds (es : List Obj) : List Val :=
  es.filterMap (fun e => getK e "id")

/-- Identifier uniqueness of an element sequence: no id value occurs on
two elements. -/
def uniqueIds (es : List Obj) : Prop :=
  (elementIds es).Nodup

instance (es : List Obj) : Decidable (uniqueIds es) :=
  inferInstanceAs (Decidable (elementIds es).Nodup)

/-! ## Shared concrete fixtures for witnesses and counterexamples -/

/-- Example client, the mutation origin in socket scenarios. -/
def exClientA : Client := ⟨0, true⟩

/-- Example client, a second open subscriber. -/
def exClientB : Client := ⟨1, true⟩

/-- Example stored element with id a. -/
def exElA : Obj := [("id", .str "a"), ("type", .str "rectangle")]

/-- Example stored element with id b. -/
def exElB : Obj := [("id", .str "b")]

/-- A second stored element that repeats id a. -/
def exElA2 : Obj := [("id", .str "a"), ("n", .num 2)]

/-- Example session holding one element and two subscribers. -/
def exSessA : Session := ⟨"s", [exElA], [exClientA, exClientB], 5⟩

/-- Example store holding the record of exSessA. -/
def exDbA : Db := [("s", sessRecOf exSessA)]

/-- Example socket bound to client 0 of exSessA. -/
def exWsA : Sock := ⟨0, "u0", "s"⟩

/-- Example valid create body. -/
def exRectBody : Obj := [("type", .str "rectangle"), ("x", .num 1)]

/-- Example invalid create body: no type field. -/
def exBadBody : Obj := [("x", .num 2)]

/-- Example arrow body: the tag the spec lists but the HTTP validator
rejects. -/
def exArrowBody : Obj :=
  [("type", .str "arrow"), ("x1", .num 0), ("y1", .num 0),
   ("x2", .num 10), ("y2", .num 10)]

/-- Example server state caching and persisting exSessA. -/
def exStA : ServerState := ⟨[("s", exSessA)], exDbA⟩

/-- Example socket move body carrying its own id, different from the
matched element. -/
def exMoveBody : Obj := [("id", .str "zz"), ("x", .num 100)]

/-- Example session with two records sharing id a around one with
id b. -/
def exSessDup : Session := ⟨"s", [exElA, exElB, exElA2], [exClientA, exClientB], 5⟩

/-- Example store holding the record of exSessDup. -/
def exDbDup : Db := [("s", sessRecOf exSessDup)]

/-- Example session with no elements. -/
def exSessEmpty : Session := ⟨"s", [], [exClientA, exClientB], 5⟩

/-- Example server state caching and persisting exSessEmpty. -/
def exStEmpty : ServerState := ⟨[("s", exSessEmpty)], [("s", sessRecOf exSessEmpty)]⟩

/-- Example create body that supplies its own id. -/
def exDupBody : Obj := [("type", .str "rectangle"), ("id", .str "dup")]

/-! ## Helper lemmas -/

/-- Lookup distributes over append: the right-hand object overrides. -/
theorem getK_append (a b : Obj) (k : String) :
    getK (a ++ b) k = match getK b k with
      | some v => some v
      | none => getK a k := by
  induction a with
  | nil => simp only [List.nil_append, getK]; cases getK b k <;> rfl
  | cons p rest ih =>
    simp only [List.cons_append, getK, List.append_eq, ih]
    cases getK b k <;> cases getK rest k <;> rfl

/-- Lookup in a two-field record of other keys falls through to none. -/
theorem getK_pair_of_ne (k k1 k2 : String) (v1 v2 : Val)
    (h1 : k1 ≠ k) (h2 : k2 ≠ k) :
    getK [(k1, v1), (k2, v2)] k = none := by
  simp [getK, h1, h2]

/-- A type accepted by validTypes.includes is in particular truthy. -/
theorem truthyField_of_includes (o : Option Val) (h : includesType o = true) :
    truthyField o = true := by
  match o with
  | some (.str t) =>
    simp only [includesType] at h
    simp only [truthyField, truthy, ne_eq, decide_eq_true_eq]
    intro he
    subst he
    revert h
    decide
  | some (.num n) => simp [includesType] at h
  | some (.bool b) => simp [includesType] at h
  | some .null => simp [includesType] at h
  | none => simp [includesType] at h

/-- An origin-excluding broadcast, written with the exclusion test on the
client id. -/
theorem broadcast_some_eq (clients : List Client) (f : Frame) (origin : Nat) :
    broadcast clients f (some origin) =
      (clients.filter (fun c => c.isOpen && decide (c.cid ≠ origin))).map
        (fun c => (c.cid, f)) := by
  unfold broadcast
  congr 1
  apply List.filter_congr
  intro c _
  by_cases h : c.cid = origin
  · simp [h]
  · simp [h, Bool.and_comm, Ne.symm h]

/-- Recipients of an origin-excluding broadcast. -/
theorem broadcast_recipients (clients : List Client) (f : Frame) (origin : Nat) :
    (broadcast clients f (some origin)).map Prod.fst = openOthers clients origin := by
  rw [broadcast_some_eq]
  simp [openOthers, List.map_map]

/-- Recipients of a broadcast to all. -/
theorem broadcastAll_recipients (clients : List Client) (f : Frame) :
    (broadcastAll clients f).map Prod.fst = openAll clients := by
  simp [broadcastAll, openAll, List.map_map]

/-- No delivery of an origin-excluding broadcast goes to the origin, and
each carries the broadcast frame. -/
theorem broadcast_not_origin (clients : List Client) (f : Frame) (origin : Nat)
    (d : Delivery) (hd : d ∈ broadcast clients f (some origin)) :
    d.1 ≠ origin ∧ d.2 = f := by
  rw [broadcast_some_eq] at hd
  obtain ⟨c, hc, rfl⟩ := List.mem_map.mp hd
  have := (List.mem_filter.mp hc).2
  simp only [Bool.and_eq_true, decide_eq_true_eq] at this
  exact ⟨this.2, rfl⟩

/-- Every open client other than the origin receives an origin-excluding
broadcast. -/
theorem broadcast_covers (clients : List Client) (f : Frame) (origin : Nat)
    (c : Client) (hc : c ∈ clients) (hop : c.isOpen = true) (hne : c.cid ≠ origin) :
    (c.cid, f) ∈ broadcast clients f (some origin) := by
  rw [broadcast_some_eq]
  exact List.mem_map.mpr ⟨c, List.mem_filter.mpr ⟨hc, by simp [hop, hne]⟩, rfl⟩

/-- Every open client receives an all-clients broadcast. -/
theorem broadcastAll_covers (clients : List Client) (f : Frame)
    (c : Client) (hc : c ∈ clients) (hop : c.isOpen = true) :
    (c.cid, f) ∈ broadcastAll clients f := by
  exact List.mem_map.mpr ⟨c, List.mem_filter.mpr ⟨hc, hop⟩, rfl⟩

/-- Lookup of a three-field record of other keys falls through to none. -/
theorem getK_triple_of_ne (k k1 k2 k3 : String) (v1 v2 v3 : Val)
    (h1 : k1 ≠ k) (h2 : k2 ≠ k) (h3 : k3 ≠ k) :
    getK [(k1, v1), (k2, v2), (k3, v3)] k = none := by
  simp [getK, h1, h2, h3]

/-- Updating a key and reading it back yields the written value. -/
theorem aGet_aPut {α : Type} (m : List (String × α)) (k : String) (v : α) :
    aGet (aPut m k v) k = some v := by
  induction m with
  | nil => simp [aGet, aPut]
  | cons p rest ih =>
    by_cases hp : p.1 = k
    · simp [aPut, aGet, List.any_cons, List.find?_cons, hp]
    · by_cases hr : rest.any (fun q => decide (q.1 = k)) = true
      · have : aPut rest k v = rest.map (fun q => if q.1 = k then (k, v) else q) := by
          simp [aPut, hr]
        rw [this] at ih
        simp [aPut, aGet, List.any_cons, List.find?_cons, hp, hr] at ih ⊢
        exact ih
      · have : aPut rest k v = rest ++ [(k, v)] := by
          simp [aPut, hr]
        rw [this] at ih
        simp [aPut, aGet, List.any_cons, List.find?_cons, hp, hr] at ih ⊢
        exact ih

/-- getOrCreateSession on a cached session returns it with the state
unchanged. -/
theorem getOrCreateSession_cached (st : ServerState) (sid : String) (now : Int)
    (sess : Session) (hs : aGet st.sessions sid = some sess) :
    getOrCreateSession st sid now = (sess, st) := by
  simp [getOrCreateSession, hs]

/-- getOrCreateSession on an identifier that is neither cached nor
persisted synthesizes an empty session and persists its skeleton. -/
theorem getOrCreateSession_new (st : ServerState) (sid : String) (now : Int)
    (hs : aGet st.sessions sid = none) (hdb : aGet st.db sid = none) :
    getOrCreateSession st sid now =
      (⟨sid, [], [], now⟩,
       ⟨aPut st.sessions sid ⟨sid, [], [], now⟩, aPut st.db sid ⟨sid, [], now⟩⟩) := by
  simp [getOrCreateSession, hs, hdb, saveSession, aGet_aPut, sessRecOf]


/-! ## Claim theorems -/

/-- C9: a cursor message leaves the session and the durable store
untouched, and broadcasts a cursor frame whose user-identifier field is
spelled oderId to every open subscriber except the origin; the origin
receives nothing. -/
theorem cursor_relay_spec (ws : Sock) (sess : Session) (db : Db)
    (x y : Val) (now : Int) (fresh : String) :
    (handleMessage ws sess db (.cursor x y) now fresh).1 = sess ∧
    (handleMessage ws sess db (.cursor x y) now fresh).2.1 = db ∧
    (handleMessage ws sess db (.cursor x y) now fresh).2.2 =
      (sess.clients.filter (fun c => c.isOpen && decide (c.cid ≠ ws.cid))).map
        (fun c => (c.cid, cursorFrame ws.userId x y)) ∧
    frameGet (cursorFrame ws.userId x y) "oderId" = some (.prim (.str ws.userId)) ∧
    ∀ d ∈ (handleMessage ws sess db (.cursor x y) now fresh).2.2, d.1 ≠ ws.cid := by
  refine ⟨rfl, rfl, ?_, ?_, ?_⟩
  · simpa [handleMessage] using
      broadcast_some_eq sess.clients (cursorFrame ws.userId x y) ws.cid
  · simp [frameGet, cursorFrame]
  · intro d hd
    exact (broadcast_not_origin sess.clients (cursorFrame ws.userId x y) ws.cid d
      (by simpa [handleMessage] using hd)).1

/-- C10: a socket move whose elementId matches replaces the stored record
wholesale with the message body plus movedBy and movedAt: every field
other than those two stamps, the id included, comes from the body alone,
so server metadata of the prior record is dropped unless the body repeats
it. -/
theorem socket_move_wholesale_replace (ws : Sock) (sess : Session) (db : Db)
    (eid : Val) (body : Obj) (now : Int) (fresh : String) (i : Nat)
    (hfind : sess.elements.findIdx? (fun el => decide (getK el "id" = some eid)) = some i) :
    (handleMessage ws sess db (.move eid body) now fresh).1.elements =
      sess.elements.set i (movedRec body ws.userId now) ∧
    (∀ k, k ≠ "movedBy" → k ≠ "movedAt" →
      getK (movedRec body ws.userId now) k = getK body k) ∧
    getK (movedRec body ws.userId now) "id" = getK body "id" ∧
    getK (movedRec body ws.userId now) "createdBy" = getK body "createdBy" ∧
    getK (movedRec body ws.userId now) "movedBy" = some (.str ws.userId) ∧
    getK (movedRec body ws.userId now) "movedAt" = some (.num now) ∧
    (handleMessage ws sess db (.move eid body) now fresh).2.1 =
      aPut db ws.sessionId
        ⟨sess.id, sess.elements.set i (movedRec body ws.userId now), sess.createdAt⟩ ∧
    (handleMessage ws sess db (.move eid body) now fresh).2.2 =
      broadcast sess.clients (moveFrame eid (movedRec body ws.userId now)) (some ws.cid) := by
  have hdrop : ∀ k, k ≠ "movedBy" → k ≠ "movedAt" →
      getK (movedRec body ws.userId now) k = getK body k := by
    intro k h1 h2
    unfold movedRec
    rw [getK_append, getK_pair_of_ne k "movedBy" "movedAt" _ _ (Ne.symm h1) (Ne.symm h2)]
  refine ⟨?_, hdrop, ?_, ?_, ?_, ?_, ?_, ?_⟩
  · simp [handleMessage, hfind, movedRec]
  · exact hdrop "id" (by decide) (by decide)
  · exact hdrop "createdBy" (by decide) (by decide)
  · unfold movedRec; rw [getK_append]; simp [getK]
  · unfold movedRec; rw [getK_append]; simp [getK]
  · simp [handleMessage, hfind, movedRec, sessRecOf]
  · simp [handleMessage, hfind, movedRec]

/-- C10 witness: the move handler at a concrete session replaces the
stored record with the client body plus the move stamps. -/
theorem socket_move_wholesale_replace_witness :
    (handleMessage exWsA exSessA exDbA (.move (.str "a") exMoveBody) 7 "f").1.elements =
      [movedRec exMoveBody "u0" 7] := by
  have h := socket_move_wholesale_replace exWsA exSessA exDbA (.str "a") exMoveBody 7 "f" 0
    (by decide)
  rw [h.1]
  rfl

/-- C2 counterexample: a reorder whose position is neither front nor back
does not leave the sequence unchanged and does broadcast: the matched
element is dropped from the sequence entirely and a reorder frame is
still delivered to the other subscriber. -/
theorem reorder_unknown_position_counterexample :
    (handleMessage exWsA exSessA exDbA (.reorder (.str "a") (.str "middle")) 7 "f").1.elements
      = [] ∧
    (handleMessage exWsA exSessA exDbA (.reorder (.str "a") (.str "middle")) 7 "f").1.elements
      ≠ exSessA.elements ∧
    (handleMessage exWsA exSessA exDbA (.reorder (.str "a") (.str "middle")) 7 "f").2.2
      ≠ [] := by
  refine ⟨by decide, by decide, by decide⟩

/-- C2 (amended): when the named element is present at index i, reorder
with position front moves it to the last index and with position back to
index 0; with any other position value the element is removed from the
sequence without being reinserted, and in every present case the new
sequence is persisted and a reorder frame is broadcast to the other
subscribers; when the element is absent the operation changes nothing and
broadcasts nothing. -/
theorem reorder_behaviour_amended (ws : Sock) (sess : Session) (db : Db)
    (eid pos : Val) (now : Int) (fresh : String) :
    (∀ i, sess.elements.findIdx? (fun el => decide (getK el "id" = some eid)) = some i →
      (pos = Val.str "front" →
        (handleMessage ws sess db (.reorder eid pos) now fresh).1.elements =
          sess.elements.eraseIdx i ++ [(sess.elements.get? i).getD []]) ∧
      (pos = Val.str "back" →
        (handleMessage ws sess db (.reorder eid pos) now fresh).1.elements =
          (sess.elements.get? i).getD [] :: sess.elements.eraseIdx i) ∧
      (pos ≠ Val.str "front" → pos ≠ Val.str "back" →
        (handleMessage ws sess db (.reorder eid pos) now fresh).1.elements =
          sess.elements.eraseIdx i) ∧
      (handleMessage ws sess db (.reorder eid pos) now fresh).2.1 =
        aPut db ws.sessionId
          ⟨sess.id, (handleMessage ws sess db (.reorder eid pos) now fresh).1.elements,
           sess.createdAt⟩ ∧
      (handleMessage ws sess db (.reorder eid pos) now fresh).2.2 =
        broadcast sess.clients (reorderFrame eid pos) (some ws.cid)) ∧
    (sess.elements.findIdx? (fun el => decide (getK el "id" = some eid)) = none →
      handleMessage ws sess db (.reorder eid pos) now fresh = (sess, db, [])) := by
  constructor
  · intro i hi
    refine ⟨?_, ?_, ?_, ?_, ?_⟩
    · intro hp; simp [handleMessage, hi, hp]
    · intro hp; simp [handleMessage, hi, hp]
    · intro h1 h2; simp [handleMessage, hi, h1, h2]
    · simp [handleMessage, hi, sessRecOf]
    · simp [handleMessage, hi]
  · intro h
    simp [handleMessage, h]

/-- C2 witness: with position front the single element stays the whole
sequence, and reorder of an absent identifier is a no-op with no
deliveries. -/
theorem reorder_behaviour_amended_witness :
    (handleMessage exWsA exSessA exDbA (.reorder (.str "a") (.str "front")) 7 "f").1.elements
      = [exElA] ∧
    handleMessage exWsA exSessA exDbA (.reorder (.str "z") (.str "front")) 7 "f"
      = (exSessA, exDbA, []) := by
  constructor
  · have h := ((reorder_behaviour_amended exWsA exSessA exDbA (.str "a") (.str "front")
      7 "f").1 0 (by decide)).1 rfl
    rw [h]
    rfl
  · exact (reorder_behaviour_amended exWsA exSessA exDbA (.str "z") (.str "front")
      7 "f").2 (by decide)

/-- C3 (code bug): the HTTP element validator accepts exactly six type
tags; arrow, the seventh tag of the documented schema, is rejected with a
400 validation error by both the single and the batch create, while each
of the six listed tags is accepted and a missing type is rejected. -/
theorem http_create_rejects_arrow_code_bug :
    validTypes = ["rectangle", "circle", "line", "pen", "text", "note"] ∧
    validTypes.contains "arrow" = false ∧
    (httpPostElement exStA "s" exArrowBody 7 "f").1 =
      ⟨400, .jsonErr "Invalid element type"⟩ ∧
    (httpPostBatch exStA "s" [exArrowBody] 7 ["f"]).1 =
      ⟨400, .jsonErr "Invalid element type"⟩ ∧
    (httpPostElement exStA "s" [("type", .str "rectangle")] 7 "f").1.status = 201 ∧
    (httpPostElement exStA "s" [("type", .str "circle")] 7 "f").1.status = 201 ∧
    (httpPostElement exStA "s" [("type", .str "line")] 7 "f").1.status = 201 ∧
    (httpPostElement exStA "s" [("type", .str "pen")] 7 "f").1.status = 201 ∧
    (httpPostElement exStA "s" [("type", .str "text")] 7 "f").1.status = 201 ∧
    (httpPostElement exStA "s" [("type", .str "note")] 7 "f").1.status = 201 ∧
    (httpPostElement exStA "s" exBadBody 7 "f").1 =
      ⟨400, .jsonErr "Element type is required"⟩ := by
  decide

/-- C7: an HTTP PUT on an existing element stores the prior record
overlaid with the patch, with the id forced back to the path parameter
(even when the patch carries a different id), updatedBy and updatedAt
stamped, replaced at the same index, and broadcasts a move frame carrying
the element identifier and the new record to every open subscriber. -/
theorem http_put_merge (st : ServerState) (sid eid : String) (patch : Obj)
    (now : Int) (sess : Session) (r : SessRec) (i : Nat)
    (hdb : aGet st.db sid = some r)
    (hs : aGet st.sessions sid = some sess)
    (hfind : sess.elements.findIdx? (fun el => decide (getK el "id" = some (.str eid)))
      = some i) :
    (httpPutElement st sid eid patch now).1 =
      ⟨200, .jsonElem (putRec ((sess.elements.get? i).getD []) patch eid now)⟩ ∧
    (httpPutElement st sid eid patch now).2.1.sessions =
      aPut st.sessions sid
        ⟨sess.id,
         sess.elements.set i (putRec ((sess.elements.get? i).getD []) patch eid now),
         sess.clients, sess.createdAt⟩ ∧
    (httpPutElement st sid eid patch now).2.1.db =
      aPut st.db sid
        ⟨sess.id,
         sess.elements.set i (putRec ((sess.elements.get? i).getD []) patch eid now),
         sess.createdAt⟩ ∧
    getK (putRec ((sess.elements.get? i).getD []) patch eid now) "id" =
      some (.str eid) ∧
    (∀ k, k ≠ "id" → k ≠ "updatedBy" → k ≠ "updatedAt" →
      getK (putRec ((sess.elements.get? i).getD []) patch eid now) k =
        match getK patch k with
        | some v => some v
        | none => getK ((sess.elements.get? i).getD []) k) ∧
    getK (putRec ((sess.elements.get? i).getD []) patch eid now) "updatedBy" =
      some (.str "api") ∧
    getK (putRec ((sess.elements.get? i).getD []) patch eid now) "updatedAt" =
      some (.num now) ∧
    (httpPutElement st sid eid patch now).2.2 =
      broadcastAll sess.clients
        (moveFrame (.str eid) (putRec ((sess.elements.get? i).getD []) patch eid now)) := by
  refine ⟨?_, ?_, ?_, ?_, ?_, ?_, ?_, ?_⟩
  · simp [httpPutElement, hdb, getOrCreateSession_cached st sid now sess hs, hfind, putRec]
  · simp [httpPutElement, hdb, getOrCreateSession_cached st sid now sess hs, hfind,
      saveSession, aGet_aPut, putRec]
  · simp [httpPutElement, hdb, getOrCreateSession_cached st sid now sess hs, hfind,
      saveSession, aGet_aPut, sessRecOf, putRec]
  · unfold putRec
    rw [List.append_assoc, getK_append, getK_append]
    simp [getK]
  · intro k h1 h2 h3
    unfold putRec
    rw [List.append_assoc, getK_append, getK_append,
      getK_triple_of_ne k "id" "updatedBy" "updatedAt" _ _ _
        (Ne.symm h1) (Ne.symm h2) (Ne.symm h3)]
  · unfold putRec
    rw [List.append_assoc, getK_append, getK_append]
    simp [getK]
  · unfold putRec
    rw [List.append_assoc, getK_append, getK_append]
    simp [getK]
  · simp [httpPutElement, hdb, getOrCreateSession_cached st sid now sess hs, hfind, putRec]

/-- C7 witness: at a concrete state a PUT whose patch tries to change the
id yields 200 with the id preserved, the patched field taken from the
patch, and the update stamps set. -/
theorem http_put_merge_witness :
    (httpPutElement exStA "s" "a" [("id", Val.str "evil"), ("x", Val.num 9)] 7).1.status
      = 200 ∧
    getK (putRec exElA [("id", Val.str "evil"), ("x", Val.num 9)] "a" 7) "id"
      = some (.str "a") ∧
    getK (putRec exElA [("id", Val.str "evil"), ("x", Val.num 9)] "a" 7) "x"
      = some (.num 9) := by
  have h := http_put_merge exStA "s" "a" [("id", Val.str "evil"), ("x", Val.num 9)] 7
    exSessA (sessRecOf exSessA) 0 (by decide) (by decide) (by decide)
  refine ⟨?_, ?_, ?_⟩
  · rw [h.1]
  · have := h.2.2.2.1
    simpa [exSessA, exElA] using this
  · have := h.2.2.2.2.1 "x" (by decide) (by decide) (by decide)
    simp [exSessA, exElA] at this
    simpa [exSessA, exElA] using this

/-- C4 counterexample: a socket erase with a duplicated identifier
removes every matching record, not only the first (the later record with
the same id does not stay); and a socket erase whose identifier matches
nothing still broadcasts an erase frame. -/
theorem erase_counterexample :
    (handleMessage exWsA exSessDup exDbDup (.erase (.str "a")) 7 "f").1.elements
      = [exElB] ∧
    (handleMessage exWsA exSessDup exDbDup (.erase (.str "a")) 7 "f").1.elements
      ≠ [exElB, exElA2] ∧
    (handleMessage exWsA exSessDup exDbDup (.erase (.str "z")) 7 "f").1.elements
      = exSessDup.elements ∧
    (handleMessage exWsA exSessDup exDbDup (.erase (.str "z")) 7 "f").2.2
      ≠ [] := by
  refine ⟨by decide, by decide, by decide, by decide⟩

/-- C4 (amended): the HTTP DELETE removes exactly the first record with
the identifier and fails 404 with nothing changed and nothing broadcast
when absent; the socket erase instead removes every record whose id
equals the identifier and broadcasts an erase frame to the other
subscribers unconditionally, even when nothing matched. -/
theorem delete_behaviour_amended (st : ServerState) (sid eid : String)
    (now : Int) (sess : Session) (r : SessRec)
    (hdb : aGet st.db sid = some r)
    (hs : aGet st.sessions sid = some sess) :
    (∀ i, sess.elements.findIdx? (fun el => decide (getK el "id" = some (.str eid)))
        = some i →
      (httpDeleteElement st sid eid now).1 = ⟨204, .empty⟩ ∧
      (httpDeleteElement st sid eid now).2.1.sessions =
        aPut st.sessions sid
          ⟨sess.id, sess.elements.eraseIdx i, sess.clients, sess.createdAt⟩ ∧
      (httpDeleteElement st sid eid now).2.1.db =
        aPut st.db sid ⟨sess.id, sess.elements.eraseIdx i, sess.createdAt⟩ ∧
      (httpDeleteElement st sid eid now).2.2 =
        broadcastAll sess.clients (eraseFrame (.str eid))) ∧
    (sess.elements.findIdx? (fun el => decide (getK el "id" = some (.str eid))) = none →
      httpDeleteElement st sid eid now = (⟨404, .jsonErr "Element not found"⟩, st, [])) ∧
    (∀ ws db fresh eidv,
      (handleMessage ws sess db (.erase eidv) now fresh).1.elements =
        sess.elements.filter (fun el => decide (getK el "id" ≠ some eidv)) ∧
      (handleMessage ws sess db (.erase eidv) now fresh).2.2 =
        broadcast sess.clients (eraseFrame eidv) (some ws.cid)) := by
  refine ⟨?_, ?_, ?_⟩
  · intro i hi
    refine ⟨?_, ?_, ?_, ?_⟩
    · simp [httpDeleteElement, hdb, getOrCreateSession_cached st sid now sess hs, hi]
    · simp [httpDeleteElement, hdb, getOrCreateSession_cached st sid now sess hs, hi,
        saveSession, aGet_aPut]
    · simp [httpDeleteElement, hdb, getOrCreateSession_cached st sid now sess hs, hi,
        saveSession, aGet_aPut, sessRecOf]
    · simp [httpDeleteElement, hdb, getOrCreateSession_cached st sid now sess hs, hi]
  · intro h
    simp [httpDeleteElement, hdb, getOrCreateSession_cached st sid now sess hs, h]
  · intro ws db fresh eidv
    exact ⟨rfl, rfl⟩

/-- C4 witness: at a concrete state the HTTP DELETE of the first of two
records sharing an id removes only that record, and the DELETE of an
absent id is a 404 no-op. -/
theorem delete_behaviour_amended_witness :
    (httpDeleteElement ⟨[("s", exSessDup)], exDbDup⟩ "s" "a" 7).1 = ⟨204, .empty⟩ ∧
    httpDeleteElement ⟨[("s", exSessDup)], exDbDup⟩ "s" "q" 7 =
      (⟨404, .jsonErr "Element not found"⟩, ⟨[("s", exSessDup)], exDbDup⟩, []) := by
  constructor
  · exact (((delete_behaviour_amended ⟨[("s", exSessDup)], exDbDup⟩ "s" "a" 7 exSessDup
      (sessRecOf exSessDup) (by decide) (by decide)).1) 0 (by decide)).1
  · exact ((delete_behaviour_amended ⟨[("s", exSessDup)], exDbDup⟩ "s" "q" 7 exSessDup
      (sessRecOf exSessDup) (by decide) (by decide)).2.1) (by decide)

/-- C5 counterexample: two HTTP creates that both supply the id dup are
accepted without any uniqueness check, leaving a session whose element
sequence carries two elements with equal id. -/
theorem create_duplicate_id_counterexample :
    ¬ uniqueIds
      (((aGet
          (httpPostElement (httpPostElement exStEmpty "s" exDupBody 7 "f1").2.1
            "s" exDupBody 8 "f2").2.1.sessions "s").getD exSessEmpty).elements) := by
  decide

/-- C5 (amended): every created element carries an id field, that id is
truthy whenever the fresh uuid is non-empty, and when the client supplies
no truthy id the server uses the fresh uuid, which preserves identifier
uniqueness provided the uuid is unused; a truthy client-supplied id is
stored verbatim with no uniqueness check.  Both the socket draw and the
HTTP create append exactly this record. -/
theorem create_id_amended (sess : Session) (body : Obj) (fresh creator : String)
    (now : Int) :
    getK (mkCreated body fresh creator now) "id" = some (idOrFresh body fresh) ∧
    (fresh ≠ "" → truthy (idOrFresh body fresh) = true) ∧
    (truthyField (getK body "id") = false → idOrFresh body fresh = .str fresh) ∧
    (truthyField (getK body "id") = false →
      Val.str fresh ∉ elementIds sess.elements →
      uniqueIds sess.elements →
      uniqueIds (sess.elements ++ [mkCreated body fresh creator now])) ∧
    (∀ ws db fr, (handleMessage ws sess db (.draw body) now fr).1.elements =
      sess.elements ++ [mkCreated body fr ws.userId now]) ∧
    (∀ st sid, aGet st.sessions sid = some sess →
      includesType (getK body "type") = true →
      (httpPostElement st sid body now fresh).2.1.sessions =
        aPut st.sessions sid
          ⟨sess.id, sess.elements ++ [mkCreated body fresh "api" now],
           sess.clients, sess.createdAt⟩) := by
  have hid : getK (mkCreated body fresh creator now) "id" =
      some (idOrFresh body fresh) := by
    unfold mkCreated
    rw [getK_append]
    simp [getK]
  have hfalsy : truthyField (getK body "id") = false →
      idOrFresh body fresh = .str fresh := by
    intro h
    unfold truthyField at h
    unfold idOrFresh
    cases hb : getK body "id" with
    | none => rfl
    | some v =>
      rw [hb] at h
      have h2 : truthy v = false := h
      simp [h2]
  refine ⟨hid, ?_, hfalsy, ?_, ?_, ?_⟩
  · intro hf
    unfold idOrFresh
    cases hb : getK body "id" with
    | none => simp [truthy, hf]
    | some v =>
      by_cases ht : truthy v = true
      · simp [ht]
      · simp only [ht, if_false, Bool.false_eq_true]
        simp [truthy, hf]
  · intro h hfresh huniq
    have hmk : getK (mkCreated body fresh creator now) "id" = some (.str fresh) := by
      rw [hid, hfalsy h]
    have hsplit : (sess.elements ++ [mkCreated body fresh creator now]).filterMap
        (fun e => getK e "id") =
        sess.elements.filterMap (fun e => getK e "id") ++ [Val.str fresh] := by
      rw [List.filterMap_append]
      simp [hmk]
    unfold uniqueIds elementIds
    rw [hsplit]
    have hd : (sess.elements.filterMap (fun e => getK e "id")).Disjoint
        [Val.str fresh] := by
      intro x hx hxs
      rw [List.mem_singleton] at hxs
      subst hxs
      exact hfresh hx
    exact List.Nodup.append huniq (List.nodup_singleton _) hd
  · intro ws db fr
    rfl
  · intro st sid hs hv
    have ht := truthyField_of_includes _ hv
    simp [httpPostElement, getOrCreateSession_cached st sid now sess hs, ht, hv,
      saveSession, aGet_aPut]

/-- C5 witness: creating a body that supplies no id with a fresh uuid on
an empty session preserves uniqueness, and the HTTP create stores exactly
that element. -/
theorem create_id_amended_witness :
    uniqueIds (exSessEmpty.elements ++ [mkCreated exRectBody "f" "api" 7]) ∧
    (httpPostElement exStEmpty "s" exRectBody 7 "f").2.1.sessions =
      aPut exStEmpty.sessions "s"
        ⟨"s", exSessEmpty.elements ++ [mkCreated exRectBody "f" "api" 7],
         exSessEmpty.clients, 5⟩ := by
  constructor
  · exact (create_id_amended exSessEmpty exRectBody "f" "api" 7).2.2.2.1
      (by decide) (by decide) (by decide)
  · exact (create_id_amended exSessEmpty exRectBody "f" "api" 7).2.2.2.2.2
      exStEmpty "s" (by decide) (by decide)

/-- C8: against a session identifier with no persisted record, every HTTP
GET returns 404 with an error body and leaves the state untouched, while
a valid HTTP element create or a socket attach creates the session and
persists its record, after which the session GET succeeds with 200. -/
theorem missing_session_behaviour (st : ServerState) (sid : String) (now : Int)
    (h : aGet st.db sid = none) (hs : aGet st.sessions sid = none) :
    (httpGetSession st sid now = (⟨404, .jsonErr "Session not found"⟩, st, [])) ∧
    (httpGetElements st sid now = (⟨404, .jsonErr "Session not found"⟩, st, [])) ∧
    (∀ eid, httpGetElement st sid eid now =
      (⟨404, .jsonErr "Session not found"⟩, st, [])) ∧
    (∀ body fresh, includesType (getK body "type") = true →
      aGet (httpPostElement st sid body now fresh).2.1.db sid =
        some ⟨sid, [mkCreated body fresh "api" now], now⟩ ∧
      (httpGetSession (httpPostElement st sid body now fresh).2.1 sid now).1.status
        = 200) ∧
    (∀ cid uid, aGet (wsConnect st sid cid uid now).1.db sid = some ⟨sid, [], now⟩ ∧
      (httpGetSession (wsConnect st sid cid uid now).1 sid now).1.status = 200) := by
  refine ⟨?_, ?_, ?_, ?_, ?_⟩
  · simp [httpGetSession, h]
  · simp [httpGetElements, h]
  · intro eid; simp [httpGetElement, h]
  · intro body fresh hv
    have ht := truthyField_of_includes _ hv
    have hdb2 : aGet (httpPostElement st sid body now fresh).2.1.db sid =
        some ⟨sid, [mkCreated body fresh "api" now], now⟩ := by
      simp [httpPostElement, getOrCreateSession_new st sid now hs h, ht, hv,
        saveSession, aGet_aPut, sessRecOf]
    exact ⟨hdb2, by simp [httpGetSession, hdb2]⟩
  · intro cid uid
    have hdb2 : aGet (wsConnect st sid cid uid now).1.db sid = some ⟨sid, [], now⟩ := by
      simp [wsConnect, getOrCreateSession_new st sid now hs h, aGet_aPut]
    exact ⟨hdb2, by simp [httpGetSession, hdb2]⟩

/-- C8 witness: on the empty server state, the session GET 404s, a create
persists the session, and a GET afterwards succeeds. -/
theorem missing_session_behaviour_witness :
    httpGetSession ⟨[], []⟩ "z" 7 =
      (⟨404, .jsonErr "Session not found"⟩, ⟨[], []⟩, []) ∧
    (httpGetSession (httpPostElement ⟨[], []⟩ "z" exRectBody 7 "f").2.1 "z" 7).1.status
      = 200 ∧
    aGet (wsConnect ⟨[], []⟩ "z" 3 "u" 7).1.db "z" = some ⟨"z", [], 7⟩ := by
  refine ⟨?_, ?_, ?_⟩
  · exact (missing_session_behaviour ⟨[], []⟩ "z" 7 (by decide) (by decide)).1
  · exact ((missing_session_behaviour ⟨[], []⟩ "z" 7 (by decide) (by decide)).2.2.2.1
      exRectBody "f" (by decide)).2
  · exact ((missing_session_behaviour ⟨[], []⟩ "z" 7 (by decide) (by decide)).2.2.2.2
      3 "u").1

/-- The batch loop on a valid prefix followed by an invalid element
creates and broadcasts exactly the prefix, then stops with the validation
message. -/
theorem batchLoop_stops_at_invalid (cls : List Client) (now : Int)
    (good : List Obj) (bad : Obj) (rest : List Obj) (freshes : List String)
    (hg : ∀ b ∈ good, includesType (getK b "type") = true)
    (hb : includesType (getK bad "type") = false) :
    batchLoop cls now (good ++ bad :: rest) freshes =
      (batchCreated good freshes now,
       batchDels cls (batchCreated good freshes now),
       some (batchErrMsg bad)) := by
  induction good generalizing freshes with
  | nil =>
    cases htf : truthyField (getK bad "type") with
    | false => simp [batchLoop, htf, hb, batchCreated, batchDels, batchErrMsg]
    | true => simp [batchLoop, htf, hb, batchCreated, batchDels, batchErrMsg]
  | cons b bs ih =>
    have hval := hg b (List.mem_cons_self b bs)
    have htr := truthyField_of_includes _ hval
    simp [batchLoop, htr, hval, batchCreated, batchDels,
      ih freshes.tail (fun x hx => hg x (List.mem_cons_of_mem _ hx))]

/-- The batch loop on all-valid input creates and broadcasts everything
and reports no error. -/
theorem batchLoop_all_valid (cls : List Client) (now : Int)
    (bodies : List Obj) (freshes : List String)
    (hg : ∀ b ∈ bodies, includesType (getK b "type") = true) :
    batchLoop cls now bodies freshes =
      (batchCreated bodies freshes now,
       batchDels cls (batchCreated bodies freshes now), none) := by
  induction bodies generalizing freshes with
  | nil => simp [batchLoop, batchCreated, batchDels]
  | cons b bs ih =>
    have hval := hg b (List.mem_cons_self b bs)
    have htr := truthyField_of_includes _ hval
    simp [batchLoop, htr, hval, batchCreated, batchDels,
      ih freshes.tail (fun x hx => hg x (List.mem_cons_of_mem _ hx))]

/-- C1 counterexample: a batch of one valid element followed by one
invalid element fails with 400, yet the valid element was committed to
the in-memory element sequence and its draw frame was broadcast. -/
theorem batch_partial_commit_counterexample :
    (httpPostBatch exStEmpty "s" [exRectBody, exBadBody] 7 ["f1", "f2"]).1.status
      = 400 ∧
    ((aGet (httpPostBatch exStEmpty "s" [exRectBody, exBadBody] 7
        ["f1", "f2"]).2.1.sessions "s").getD exSessEmpty).elements ≠ [] ∧
    (httpPostBatch exStEmpty "s" [exRectBody, exBadBody] 7 ["f1", "f2"]).2.2
      ≠ [] := by
  refine ⟨by decide, by decide, by decide⟩

/-- C1 (amended): a batch whose body contains an invalid element fails
with a 400 validation error and the batch is never persisted (the store
is unchanged), but every valid element preceding the first invalid one
has already been appended to the in-memory sequence and its draw frame
already broadcast to every open subscriber; elements at and after the
first invalid one are not committed. -/
theorem batch_invalid_amended (st : ServerState) (sid : String)
    (good : List Obj) (bad : Obj) (rest : List Obj) (now : Int)
    (freshes : List String) (sess : Session)
    (hs : aGet st.sessions sid = some sess)
    (hg : ∀ b ∈ good, includesType (getK b "type") = true)
    (hb : includesType (getK bad "type") = false) :
    (httpPostBatch st sid (good ++ bad :: rest) now freshes).1 =
      ⟨400, .jsonErr (batchErrMsg bad)⟩ ∧
    (httpPostBatch st sid (good ++ bad :: rest) now freshes).2.1.db = st.db ∧
    (httpPostBatch st sid (good ++ bad :: rest) now freshes).2.1.sessions =
      aPut st.sessions sid
        ⟨sess.id, sess.elements ++ batchCreated good freshes now,
         sess.clients, sess.createdAt⟩ ∧
    (httpPostBatch st sid (good ++ bad :: rest) now freshes).2.2 =
      batchDels sess.clients (batchCreated good freshes now) := by
  refine ⟨?_, ?_, ?_, ?_⟩ <;>
    simp [httpPostBatch, getOrCreateSession_cached st sid now sess hs,
      batchLoop_stops_at_invalid sess.clients now good bad rest freshes hg hb]

/-- C1 witness: one valid element before one invalid element gives a 400
whose store is unchanged while the valid element was committed in memory
and broadcast. -/
theorem batch_invalid_amended_witness :
    (httpPostBatch exStEmpty "s" [exRectBody, exBadBody] 7 ["f1", "f2"]).1 =
      ⟨400, .jsonErr (batchErrMsg exBadBody)⟩ ∧
    (httpPostBatch exStEmpty "s" [exRectBody, exBadBody] 7 ["f1", "f2"]).2.1.db =
      exStEmpty.db ∧
    (httpPostBatch exStEmpty "s" [exRectBody, exBadBody] 7 ["f1", "f2"]).2.2 =
      batchDels exSessEmpty.clients (batchCreated [exRectBody] ["f1", "f2"] 7) := by
  have h := batch_invalid_amended exStEmpty "s" [exRectBody] exBadBody [] 7
    ["f1", "f2"] exSessEmpty (by decide)
    (by intro b hbm; rw [List.mem_singleton] at hbm; subst hbm; decide)
    (by decide)
  exact ⟨h.1, h.2.1, h.2.2.2⟩

/-- Recipients of a batch create: one pass over all open clients per
created element. -/
theorem batchDels_recipients (cls : List Client) (created : List Obj) :
    (batchDels cls created).map Prod.fst =
      (created.map (fun _ => openAll cls)).flatten := by
  induction created with
  | nil => simp [batchDels]
  | cons e es ih =>
    show (broadcastAll cls (drawFrame e) ++ batchDels cls es).map Prod.fst =
      openAll cls ++ (es.map (fun _ => openAll cls)).flatten
    rw [List.map_append, broadcastAll_recipients, ih]

/-- C6: no socket-origin operation ever delivers a frame to the
originating socket; each socket-origin mutation (draw, erase, clear, and
move and reorder when the element is found) delivers its frame to exactly
the other open subscribers; each HTTP-origin mutation (create, update,
delete, clear, and each element of a valid batch) delivers its frame to
exactly all open subscribers. -/
theorem broadcast_origin_discipline :
    (∀ ws sess db msg now fresh,
      ∀ d ∈ (handleMessage ws sess db msg now fresh).2.2, d.1 ≠ ws.cid) ∧
    (∀ ws sess (db : Db) body now fresh,
      ((handleMessage ws sess db (.draw body) now fresh).2.2).map Prod.fst =
        openOthers sess.clients ws.cid) ∧
    (∀ ws sess (db : Db) eidv now fresh,
      ((handleMessage ws sess db (.erase eidv) now fresh).2.2).map Prod.fst =
        openOthers sess.clients ws.cid) ∧
    (∀ ws sess (db : Db) now fresh,
      ((handleMessage ws sess db .clear now fresh).2.2).map Prod.fst =
        openOthers sess.clients ws.cid) ∧
    (∀ ws sess (db : Db) eidv body now fresh i,
      sess.elements.findIdx? (fun el => decide (getK el "id" = some eidv)) = some i →
      ((handleMessage ws sess db (.move eidv body) now fresh).2.2).map Prod.fst =
        openOthers sess.clients ws.cid) ∧
    (∀ ws sess (db : Db) eidv pos now fresh i,
      sess.elements.findIdx? (fun el => decide (getK el "id" = some eidv)) = some i →
      ((handleMessage ws sess db (.reorder eidv pos) now fresh).2.2).map Prod.fst =
        openOthers sess.clients ws.cid) ∧
    (∀ st sid body now fresh sess, aGet st.sessions sid = some sess →
      includesType (getK body "type") = true →
      ((httpPostElement st sid body now fresh).2.2).map Prod.fst =
        openAll sess.clients) ∧
    (∀ st sid eid patch now sess r i, aGet st.db sid = some r →
      aGet st.sessions sid = some sess →
      sess.elements.findIdx? (fun el => decide (getK el "id" = some (.str eid)))
        = some i →
      ((httpPutElement st sid eid patch now).2.2).map Prod.fst =
        openAll sess.clients) ∧
    (∀ st sid eid now sess r i, aGet st.db sid = some r →
      aGet st.sessions sid = some sess →
      sess.elements.findIdx? (fun el => decide (getK el "id" = some (.str eid)))
        = some i →
      ((httpDeleteElement st sid eid now).2.2).map Prod.fst =
        openAll sess.clients) ∧
    (∀ st sid now sess r, aGet st.db sid = some r →
      aGet st.sessions sid = some sess →
      ((httpClearElements st sid now).2.2).map Prod.fst = openAll sess.clients) ∧
    (∀ st sid bodies now freshes sess, aGet st.sessions sid = some sess →
      (∀ b ∈ bodies, includesType (getK b "type") = true) →
      ((httpPostBatch st sid bodies now freshes).2.2).map Prod.fst =
        ((batchCreated bodies freshes now).map (fun _ => openAll sess.clients)).flatten) := by
  refine ⟨?_, ?_, ?_, ?_, ?_, ?_, ?_, ?_, ?_, ?_, ?_⟩
  · intro ws sess db msg now fresh d hd
    cases msg with
    | draw body => exact (broadcast_not_origin _ _ _ d hd).1
    | erase eidv => exact (broadcast_not_origin _ _ _ d hd).1
    | clear => exact (broadcast_not_origin _ _ _ d hd).1
    | cursor x y => exact (broadcast_not_origin _ _ _ d hd).1
    | move eidv body =>
      cases hfind : sess.elements.findIdx? (fun el => decide (getK el "id" = some eidv)) with
      | some i =>
        simp only [handleMessage, hfind] at hd
        exact (broadcast_not_origin _ _ _ d hd).1
      | none =>
        simp only [handleMessage, hfind] at hd
        simp at hd
    | reorder eidv pos =>
      cases hfind : sess.elements.findIdx? (fun el => decide (getK el "id" = some eidv)) with
      | some i =>
        simp only [handleMessage, hfind] at hd
        exact (broadcast_not_origin _ _ _ d hd).1
      | none =>
        simp only [handleMessage, hfind] at hd
        simp at hd
    | other t => simp [handleMessage] at hd
  · intro ws sess db body now fresh
    exact broadcast_recipients sess.clients _ ws.cid
  · intro ws sess db eidv now fresh
    exact broadcast_recipients sess.clients _ ws.cid
  · intro ws sess db now fresh
    exact broadcast_recipients sess.clients _ ws.cid
  · intro ws sess db eidv body now fresh i hfind
    simp only [handleMessage, hfind]
    exact broadcast_recipients sess.clients _ ws.cid
  · intro ws sess db eidv pos now fresh i hfind
    simp only [handleMessage, hfind]
    exact broadcast_recipients sess.clients _ ws.cid
  · intro st sid body now fresh sess hs hv
    have ht := truthyField_of_includes _ hv
    simp [httpPostElement, getOrCreateSession_cached st sid now sess hs, ht, hv,
      broadcastAll_recipients]
  · intro st sid eid patch now sess r i hdb hs hfind
    simp [httpPutElement, hdb, getOrCreateSession_cached st sid now sess hs, hfind,
      broadcastAll_recipients]
  · intro st sid eid now sess r i hdb hs hfind
    simp [httpDeleteElement, hdb, getOrCreateSession_cached st sid now sess hs, hfind,
      broadcastAll_recipients]
  · intro st sid now sess r hdb hs
    simp [httpClearElements, hdb, getOrCreateSession_cached st sid now sess hs,
      broadcastAll_recipients]
  · intro st sid bodies now freshes sess hs hg
    simp [httpPostBatch, getOrCreateSession_cached st sid now sess hs,
      batchLoop_all_valid sess.clients now bodies freshes hg, batchDels_recipients]

/-- C6 witness: a socket draw in a two-subscriber session reaches exactly
the other subscriber, and an HTTP create reaches both. -/
theorem broadcast_origin_discipline_witness :
    ((handleMessage exWsA exSessA exDbA (.draw exRectBody) 7 "f").2.2).map Prod.fst
      = [1] ∧
    ((httpPostElement exStA "s" exRectBody 7 "f").2.2).map Prod.fst = [0, 1] := by
  constructor
  · have h := broadcast_origin_discipline.2.1 exWsA exSessA exDbA exRectBody 7 "f"
    rw [h]
    decide
  · have h := broadcast_origin_discipline.2.2.2.2.2.2.1 exStA "s" exRectBody 7 "f"
      exSessA (by decide) (by decide)
    rw [h]
    decide

end Whiteboard
